import Mathlib

/-!
# Verification of the hana CelestiaDA pipeline against its specification

This file shallowly embeds the core of the `hana` repository — the
CelestiaDA data-availability extension of an optimistic rollup's
fault-proof derivation pipeline — and proves or refutes the specified
properties of:

* the proof primitives `encode_data_root_tuple`, `calculate_mapping_slot`
  and `verify_data_commitment_storage` (`crates/oracle/src/payload.rs`,
  `crates/blobstream/src/blobstream.rs`);
* the `OraclePayload` binary codec (`crates/oracle/src/payload.rs`);
* the `HintWrapper` hint taxonomy (`crates/oracle/src/hint.rs`);
* the guest-side provider `OracleCelestiaProvider::blob_get`
  (`crates/oracle/src/provider.rs`) and the host-side witness assembler
  (`bin/host/src/celestia/handler.rs`, `online_provider.rs`);
* the derivation-pipeline adapter `CelestiaDADataSource::next` and the
  stateful `CelestiaDASource` (`crates/celestia/src/celestia.rs`,
  `crates/celestia/src/source.rs`).

Machine integers are modelled as `Nat` with explicit truncation where the
source relies on a fixed width; byte strings are `List Nat`.  External
crates (keccak, the Merkle-Patricia verifier of `alloy_trie`, the NMT and
Merkle verifiers of `celestia_types`, the pay-for-blobs parser of
`sov_celestia_adapter`, the base hint alphabet of `kona_proof`) are not
part of this repository; functions of this repository that call them are
parameterised over those external functions, so every theorem below holds
for all behaviours of the external code, and concrete witnesses
instantiate them with explicit executable functions.
-/

set_option maxRecDepth 8192

namespace Hana

/-! ## Byte-string primitives

Little-endian and big-endian fixed-width byte encodings of natural
numbers, mirroring Rust's `u64::to_le_bytes`, `u64::to_be_bytes` and
`U256::to_be_bytes::<32>`. -/

/-- Little-endian byte encoding of `n`, exactly `w` bytes (Rust
`to_le_bytes` after truncation to `w` bytes). -/
def leBytes : Nat → Nat → List Nat
  | 0, _ => []
  | w + 1, n => (n % 256) :: leBytes w (n / 256)

/-- Value of a little-endian byte string (Rust `from_le_bytes`). -/
def ofLE : List Nat → Nat
  | [] => 0
  | b :: bs => b + 256 * ofLE bs

/-- Big-endian byte encoding of `n`, exactly `w` bytes (Rust
`to_be_bytes`): the reverse of the little-endian encoding. -/
def beBytes (w n : Nat) : List Nat := (leBytes w n).reverse

/-- Value of a big-endian byte string (Rust `from_be_bytes`). -/
def ofBE (bs : List Nat) : Nat := ofLE bs.reverse

theorem leBytes_length (w n : Nat) : (leBytes w n).length = w := by
  induction w generalizing n with
  | zero => rfl
  | succ w ih => simp [leBytes, ih]

theorem beBytes_length (w n : Nat) : (beBytes w n).length = w := by
  simp [beBytes, leBytes_length]

theorem ofLE_leBytes (w n : Nat) : ofLE (leBytes w n) = n % 256 ^ w := by
  induction w generalizing n with
  | zero => simp [leBytes, ofLE, Nat.mod_one]
  | succ w ih =>
    rw [leBytes, ofLE, ih]
    rw [pow_succ, mul_comm (256 ^ w) 256, Nat.mod_mul]

theorem ofLE_leBytes_of_lt {w n : Nat} (h : n < 256 ^ w) :
    ofLE (leBytes w n) = n := by
  rw [ofLE_leBytes, Nat.mod_eq_of_lt h]

theorem ofBE_beBytes (w n : Nat) : ofBE (beBytes w n) = n % 256 ^ w := by
  rw [beBytes, ofBE, List.reverse_reverse, ofLE_leBytes]

theorem ofBE_beBytes_of_lt {w n : Nat} (h : n < 256 ^ w) :
    ofBE (beBytes w n) = n := by
  rw [ofBE_beBytes, Nat.mod_eq_of_lt h]

/-- Nibble expansion of a byte string: each byte becomes its high then low
nibble.  Mirrors `alloy_trie::Nibbles::unpack`. -/
def nibblesUnpack (bs : List Nat) : List Nat :=
  (bs.map (fun b => [b / 16, b % 16])).flatten

/-! ## Proof primitives (`crates/oracle/src/payload.rs`, identical in
`crates/blobstream/src/blobstream.rs`) -/

/-- Storage slot of the `state_dataCommitments` mapping in the Blobstream
contract (`pub const DATA_COMMITMENTS_SLOT: u32 = 254`). -/
def DATA_COMMITMENTS_SLOT : Nat := 254

/-- Embeds `calculate_mapping_slot(mapping_slot, key)`: the keccak256 hash
of the 32-byte big-endian key followed by the 32-byte big-endian slot.
The keccak256 function lives in the external `alloy_primitives` crate and
is passed as the parameter `keccak`. -/
def calculate_mapping_slot (keccak : List Nat → List Nat)
    (mapping_slot : Nat) (key : Nat) : List Nat :=
  keccak (beBytes 32 key ++ beBytes 32 mapping_slot)

/-- Modelled from the spec: the external `alloy_trie::proof::verify_proof`.
The spec calls it a standard Merkle-Patricia proof verification against a
root with an expected value; it is abstracted here over `mptLookup`, the
value the proof nodes resolve to at the given key nibbles under the given
root (`none` when they resolve to no value), and succeeds exactly when
that value matches the expected one. -/
def verifyProofMPT (mptLookup : List Nat → List Nat → List (List Nat) → Option (List Nat))
    (root : List Nat) (key : List Nat) (expected : Option (List Nat))
    (proof : List (List Nat)) : Except String Unit :=
  if mptLookup root key proof = expected then Except.ok ()
  else Except.error "proof verification failed"

/-- Embeds `verify_data_commitment_storage(root, storage_proof,
commitment_nonce, expected_commitment)`: computes the mapping slot for
`state_dataCommitments[nonce]`, unpacks `keccak256(slot)` into nibbles,
prefixes the expected commitment with the RLP byte `0xa0`, and verifies
the Merkle-Patricia proof. -/
def verify_data_commitment_storage
    (keccak : List Nat → List Nat)
    (mptLookup : List Nat → List Nat → List (List Nat) → Option (List Nat))
    (root : List Nat) (storage_proof : List (List Nat))
    (commitment_nonce : Nat) (expected_commitment : List Nat) :
    Except String Unit :=
  let slot := calculate_mapping_slot keccak DATA_COMMITMENTS_SLOT commitment_nonce
  let nibbles := nibblesUnpack (keccak slot)
  let expected_with_prefix := 0xa0 :: expected_commitment
  match verifyProofMPT mptLookup root nibbles (some expected_with_prefix) storage_proof with
  | Except.ok _ => Except.ok ()
  | Except.error err => Except.error err

/-- Embeds `encode_data_root_tuple(height, data_root)`: 24 zero bytes,
then the 8-byte big-endian height, then the 32-byte data root. -/
def encode_data_root_tuple (height : Nat) (data_root : List Nat) : List Nat :=
  List.replicate 24 0 ++ beBytes 8 height ++ data_root

/-! ## The `OraclePayload` binary codec (`crates/oracle/src/payload.rs`)

`OraclePayload::to_bytes`/`from_bytes` delegate to the external `bincode`
crate.  Modelled from the spec: §3 fixes the canonical binary format —
field order as declared, var-length byte strings length-prefixed, 32-byte
fields raw, the proof nonce as a 32-byte big-endian integer — and §4.2
requires decoding to reject trailing bytes and short inputs.  The decoder
below is that format: a state-passing decoder over the byte stream whose
top level demands that the whole input be consumed. -/

/-- A decoder: consumes a prefix of the byte stream, returning the decoded
value and the remaining bytes, or `none` on failure. -/
def DecM (α : Type) : Type := List Nat → Option (α × List Nat)

/-- Decoder returning `a` without consuming input. -/
def dpure {α : Type} (a : α) : DecM α := fun bs => some (a, bs)

/-- Sequencing of decoders. -/
def dbind {α β : Type} (m : DecM α) (f : α → DecM β) : DecM β := fun bs =>
  match m bs with
  | some (a, rest) => f a rest
  | none => none

/-- Read exactly `n` bytes from the stream. -/
def readN (n : Nat) : DecM (List Nat) := fun bs =>
  if n ≤ bs.length then some (bs.take n, bs.drop n) else none

/-- Decode a fixed-width little-endian `u64` length/integer field. -/
def decU64 : DecM Nat := dbind (readN 8) (fun bs => dpure (ofLE bs))

/-- Decode a `u64`-length-prefixed byte string. -/
def decBytes : DecM (List Nat) := dbind decU64 readN

/-- Decode exactly `k` consecutive values with decoder `d`. -/
def decListAux {α : Type} (d : DecM α) : Nat → DecM (List α)
  | 0 => dpure []
  | k + 1 => dbind d (fun a => dbind (decListAux d k) (fun as => dpure (a :: as)))

/-- Decode a `u64`-count-prefixed sequence of values. -/
def decList {α : Type} (d : DecM α) : DecM (List α) :=
  dbind decU64 (fun n => decListAux d n)

/-- Decode the 32-byte big-endian `proof_nonce` integer. -/
def decNonce : DecM Nat := dbind (readN 32) (fun bs => dpure (ofBE bs))

/-- Encode a `u64` little-endian integer field. -/
def encU64 (n : Nat) : List Nat := leBytes 8 n

/-- Encode a var-length byte string: `u64` length then the bytes. -/
def encBytes (bs : List Nat) : List Nat := encU64 bs.length ++ bs

/-- Encode a sequence: `u64` count then the element encodings. -/
def encList {α : Type} (f : α → List Nat) (xs : List α) : List Nat :=
  encU64 xs.length ++ (xs.map f).flatten

/-- Encode the 32-byte big-endian `proof_nonce` integer. -/
def encNonce (n : Nat) : List Nat := beBytes 32 n

/-- Modelled from the spec: the external `celestia_types::MerkleProof`
(the data-root-tuple inclusion proof).  The spec treats it as a Merkle
inclusion proof of a leaf in a commitment; it is modelled as the standard
tendermint proof components: leaf count, leaf index, leaf hash and the
sibling hashes. -/
structure MerkleProof where
  total : Nat
  index : Nat
  leaf_hash : List Nat
  aunts : List (List Nat)
deriving DecidableEq, Repr

/-- Modelled from the spec: the external `celestia_types::ShareProof` (the
NMT proof of a contiguous share range against the data root).  It is
modelled as the proven shares — `ShareProof::shares()` in the guest —
plus its opaque per-row proof components as byte strings. -/
structure ShareProof where
  data : List (List Nat)
  share_proofs : List (List Nat)
deriving DecidableEq, Repr

/-- Embeds the `OraclePayload` struct of `crates/oracle/src/payload.rs`:
blob bytes, data root, Blobstream data commitment, data-root-tuple proof,
share proof, proof nonce, storage root and the storage proof nodes. -/
structure OraclePayload where
  blob : List Nat
  data_root : List Nat
  data_commitment : List Nat
  data_root_tuple_proof : MerkleProof
  share_proof : ShareProof
  proof_nonce : Nat
  storage_root : List Nat
  storage_proof : List (List Nat)
deriving DecidableEq, Repr

/-- Encoding of a `MerkleProof`. -/
def encMerkle (mp : MerkleProof) : List Nat :=
  encU64 mp.total ++ encU64 mp.index ++ encBytes mp.leaf_hash ++
    encList encBytes mp.aunts

/-- Decoder for a `MerkleProof`. -/
def decMerkle : DecM MerkleProof :=
  dbind decU64 (fun t =>
    dbind decU64 (fun i =>
      dbind decBytes (fun lh =>
        dbind (decList decBytes) (fun au =>
          dpure (MerkleProof.mk t i lh au)))))

/-- Encoding of a `ShareProof`. -/
def encShare (sp : ShareProof) : List Nat :=
  encList encBytes sp.data ++ encList encBytes sp.share_proofs

/-- Decoder for a `ShareProof`. -/
def decShare : DecM ShareProof :=
  dbind (decList decBytes) (fun d =>
    dbind (decList decBytes) (fun ps =>
      dpure (ShareProof.mk d ps)))

/-- Embeds `OraclePayload::to_bytes`: the concatenation of the canonical
field encodings, in declaration order. -/
def OraclePayload.to_bytes (p : OraclePayload) : List Nat :=
  encBytes p.blob ++ p.data_root ++ p.data_commitment ++
    encMerkle p.data_root_tuple_proof ++ encShare p.share_proof ++
    encNonce p.proof_nonce ++ p.storage_root ++
    encList encBytes p.storage_proof

/-- Decoder for the full payload, field by field. -/
def decPayload : DecM OraclePayload :=
  dbind decBytes (fun blob =>
    dbind (readN 32) (fun dr =>
      dbind (readN 32) (fun dc =>
        dbind decMerkle (fun tp =>
          dbind decShare (fun sp =>
            dbind decNonce (fun pn =>
              dbind (readN 32) (fun sr =>
                dbind (decList decBytes) (fun stp =>
                  dpure (OraclePayload.mk blob dr dc tp sp pn sr stp)))))))))

/-- Embeds `OraclePayload::from_bytes`: decode all fields and reject any
input that is not consumed exactly (`none` models the `Err` return). -/
def OraclePayload.from_bytes (bs : List Nat) : Option OraclePayload :=
  match decPayload bs with
  | some (p, []) => some p
  | _ => none

/-- Well-formedness of a payload value as produced by the Rust types:
lengths fit in `u64` counts, fixed 32-byte fields have length 32, and the
nonce is a `U256`. -/
def wfBytes (bs : List Nat) : Prop := bs.length < 2 ^ 64

/-- Well-formedness of a `MerkleProof` value (`u64` fields in range,
list lengths representable). -/
def MerkleProof.wf (mp : MerkleProof) : Prop :=
  mp.total < 2 ^ 64 ∧ mp.index < 2 ^ 64 ∧ wfBytes mp.leaf_hash ∧
    mp.aunts.length < 2 ^ 64 ∧ ∀ a ∈ mp.aunts, wfBytes a

/-- Well-formedness of a `ShareProof` value. -/
def ShareProof.wf (sp : ShareProof) : Prop :=
  sp.data.length < 2 ^ 64 ∧ (∀ s ∈ sp.data, wfBytes s) ∧
    sp.share_proofs.length < 2 ^ 64 ∧ ∀ s ∈ sp.share_proofs, wfBytes s

/-- Well-formedness of an `OraclePayload` value. -/
def OraclePayload.wf (p : OraclePayload) : Prop :=
  wfBytes p.blob ∧ p.data_root.length = 32 ∧ p.data_commitment.length = 32 ∧
    p.data_root_tuple_proof.wf ∧ p.share_proof.wf ∧
    p.proof_nonce < 2 ^ 256 ∧ p.storage_root.length = 32 ∧
    p.storage_proof.length < 2 ^ 64 ∧ ∀ b ∈ p.storage_proof, wfBytes b

instance (bs : List Nat) : Decidable (wfBytes bs) := by
  unfold wfBytes; infer_instance

instance (mp : MerkleProof) : Decidable mp.wf := by
  unfold MerkleProof.wf; infer_instance

instance (sp : ShareProof) : Decidable sp.wf := by
  unfold ShareProof.wf; infer_instance

instance (p : OraclePayload) : Decidable p.wf := by
  unfold OraclePayload.wf; infer_instance

/-! ## Codec lemmas: the decoder inverts the encoder, consumes exactly the
encoding, and depends only on the bytes it consumes. -/

theorem take_append_len {α : Type} (xs ys : List α) (n : Nat)
    (h : xs.length = n) : (xs ++ ys).take n = xs := by
  subst h
  induction xs with
  | nil => simp
  | cons a xs ih => simp [List.take_succ_cons, ih]

theorem drop_append_len {α : Type} (xs ys : List α) (n : Nat)
    (h : xs.length = n) : (xs ++ ys).drop n = ys := by
  subst h
  induction xs with
  | nil => simp
  | cons a xs ih => simp [List.drop_succ_cons, ih]

theorem dbind_eval {α β : Type} (m : DecM α) (f : α → DecM β) (bs : List Nat)
    (a : α) (rest : List Nat) (hm : m bs = some (a, rest)) :
    dbind m f bs = f a rest := by
  unfold dbind
  rw [hm]

theorem readN_rt (xs rest : List Nat) (n : Nat) (h : xs.length = n) :
    readN n (xs ++ rest) = some (xs, rest) := by
  unfold readN
  rw [if_pos (by simp [List.length_append]; omega)]
  rw [take_append_len xs rest n h, drop_append_len xs rest n h]

theorem decU64_rt (n : Nat) (rest : List Nat) (h : n < 2 ^ 64) :
    decU64 (encU64 n ++ rest) = some (n, rest) := by
  unfold decU64 encU64
  rw [dbind_eval _ _ _ _ _ (readN_rt (leBytes 8 n) rest 8 (leBytes_length 8 n))]
  unfold dpure
  rw [ofLE_leBytes_of_lt (by norm_num at h ⊢; exact h)]

theorem decBytes_rt (bs rest : List Nat) (h : bs.length < 2 ^ 64) :
    decBytes (encBytes bs ++ rest) = some (bs, rest) := by
  unfold decBytes encBytes
  rw [List.append_assoc]
  rw [dbind_eval _ _ _ _ _ (decU64_rt bs.length (bs ++ rest) h)]
  exact readN_rt bs rest bs.length rfl

theorem decNonce_rt (n : Nat) (rest : List Nat) (h : n < 2 ^ 256) :
    decNonce (encNonce n ++ rest) = some (n, rest) := by
  unfold decNonce encNonce
  rw [dbind_eval _ _ _ _ _ (readN_rt (beBytes 32 n) rest 32 (beBytes_length 32 n))]
  unfold dpure
  rw [ofBE_beBytes_of_lt (by norm_num at h ⊢; exact h)]

theorem decListAux_rt {α : Type} (d : DecM α) (f : α → List Nat)
    (xs : List α) (rest : List Nat)
    (hd : ∀ x ∈ xs, ∀ r : List Nat, d (f x ++ r) = some (x, r)) :
    decListAux d xs.length ((xs.map f).flatten ++ rest) = some (xs, rest) := by
  induction xs with
  | nil => simp [decListAux, dpure]
  | cons a xs ih =>
    simp only [List.length_cons, List.map_cons, List.flatten_cons, List.append_assoc]
    unfold decListAux
    rw [dbind_eval _ _ _ _ _ (hd a (by simp) ((xs.map f).flatten ++ rest))]
    rw [dbind_eval _ _ _ _ _ (ih (fun x hx r => hd x (by simp [hx]) r))]
    rfl

theorem decList_rt {α : Type} (d : DecM α) (f : α → List Nat)
    (xs : List α) (rest : List Nat) (hlen : xs.length < 2 ^ 64)
    (hd : ∀ x ∈ xs, ∀ r : List Nat, d (f x ++ r) = some (x, r)) :
    decList d (encList f xs ++ rest) = some (xs, rest) := by
  unfold decList encList
  rw [List.append_assoc]
  rw [dbind_eval _ _ _ _ _ (decU64_rt xs.length ((xs.map f).flatten ++ rest) hlen)]
  exact decListAux_rt d f xs rest hd

theorem decBytes_rt_all (xs : List (List Nat)) (rest : List Nat)
    (hlen : xs.length < 2 ^ 64) (h : ∀ x ∈ xs, wfBytes x) :
    decList decBytes (encList encBytes xs ++ rest) = some (xs, rest) :=
  decList_rt decBytes encBytes xs rest hlen
    (fun x hx r => decBytes_rt x r (h x hx))

theorem decMerkle_rt (mp : MerkleProof) (rest : List Nat) (h : mp.wf) :
    decMerkle (encMerkle mp ++ rest) = some (mp, rest) := by
  obtain ⟨h1, h2, h3, h4, h5⟩ := h
  unfold decMerkle encMerkle
  simp only [List.append_assoc]
  rw [dbind_eval _ _ _ _ _ (decU64_rt mp.total _ h1)]
  rw [dbind_eval _ _ _ _ _ (decU64_rt mp.index _ h2)]
  rw [dbind_eval _ _ _ _ _ (decBytes_rt mp.leaf_hash _ h3)]
  rw [dbind_eval _ _ _ _ _ (decBytes_rt_all mp.aunts rest h4 h5)]
  rfl

theorem decShare_rt (sp : ShareProof) (rest : List Nat) (h : sp.wf) :
    decShare (encShare sp ++ rest) = some (sp, rest) := by
  obtain ⟨h1, h2, h3, h4⟩ := h
  unfold decShare encShare
  simp only [List.append_assoc]
  rw [dbind_eval _ _ _ _ _ (decBytes_rt_all sp.data _ h1 h2)]
  rw [dbind_eval _ _ _ _ _ (decBytes_rt_all sp.share_proofs rest h3 h4)]
  rfl

theorem decPayload_rt (p : OraclePayload) (rest : List Nat) (h : p.wf) :
    decPayload (p.to_bytes ++ rest) = some (p, rest) := by
  obtain ⟨h1, h2, h3, h4, h5, h6, h7, h8, h9⟩ := h
  unfold decPayload OraclePayload.to_bytes
  simp only [List.append_assoc]
  rw [dbind_eval _ _ _ _ _ (decBytes_rt p.blob _ h1)]
  rw [dbind_eval _ _ _ _ _ (readN_rt p.data_root _ 32 h2)]
  rw [dbind_eval _ _ _ _ _ (readN_rt p.data_commitment _ 32 h3)]
  rw [dbind_eval _ _ _ _ _ (decMerkle_rt p.data_root_tuple_proof _ h4)]
  rw [dbind_eval _ _ _ _ _ (decShare_rt p.share_proof _ h5)]
  rw [dbind_eval _ _ _ _ _ (decNonce_rt p.proof_nonce _ h6)]
  rw [dbind_eval _ _ _ _ _ (readN_rt p.storage_root _ 32 h7)]
  rw [dbind_eval _ _ _ _ _ (decBytes_rt_all p.storage_proof rest h8 h9)]
  rfl

/-- A decoder is stable when its result depends only on the prefix of the
stream it consumes: a successful run factors the input into a consumed
prefix plus the remainder, and re-running on that prefix followed by any
other remainder succeeds identically. -/
def DStable {α : Type} (m : DecM α) : Prop :=
  ∀ bs a rem, m bs = some (a, rem) →
    ∃ pre, bs = pre ++ rem ∧ ∀ rest, m (pre ++ rest) = some (a, rest)

theorem dpure_stable {α : Type} (a : α) : DStable (dpure a) := by
  intro bs b rem h
  unfold dpure at h
  obtain ⟨rfl, rfl⟩ : a = b ∧ bs = rem := by
    simpa using h
  exact ⟨[], by simp, fun rest => rfl⟩

theorem readN_stable (n : Nat) : DStable (readN n) := by
  intro bs a rem h
  unfold readN at h
  by_cases hn : n ≤ bs.length
  · rw [if_pos hn] at h
    obtain ⟨rfl, rfl⟩ : bs.take n = a ∧ bs.drop n = rem := by
      simpa using h
    refine ⟨bs.take n, (List.take_append_drop n bs).symm, fun rest => ?_⟩
    have hlen : (bs.take n).length = n := by
      simp [List.length_take]; omega
    exact readN_rt (bs.take n) rest n hlen
  · rw [if_neg hn] at h
    exact absurd h (by simp)

theorem dbind_stable {α β : Type} (m : DecM α) (f : α → DecM β)
    (hm : DStable m) (hf : ∀ a, DStable (f a)) : DStable (dbind m f) := by
  intro bs b rem h
  unfold dbind at h
  cases hma : m bs with
  | none => rw [hma] at h; exact absurd h (by simp)
  | some ar =>
    obtain ⟨a, r1⟩ := ar
    rw [hma] at h
    obtain ⟨pre1, hbs, hrun1⟩ := hm bs a r1 hma
    obtain ⟨pre2, hr1, hrun2⟩ := hf a r1 b rem h
    refine ⟨pre1 ++ pre2, by rw [hbs, hr1, List.append_assoc], fun rest => ?_⟩
    unfold dbind
    rw [List.append_assoc, hrun1 (pre2 ++ rest)]
    show f a (pre2 ++ rest) = some (b, rest)
    exact hrun2 rest

theorem decU64_stable : DStable decU64 :=
  dbind_stable _ _ (readN_stable 8) (fun bs => dpure_stable (ofLE bs))

theorem decBytes_stable : DStable decBytes :=
  dbind_stable _ _ decU64_stable (fun n => readN_stable n)

theorem decNonce_stable : DStable decNonce :=
  dbind_stable _ _ (readN_stable 32) (fun bs => dpure_stable (ofBE bs))

theorem decListAux_stable {α : Type} (d : DecM α) (hd : DStable d) (k : Nat) :
    DStable (decListAux d k) := by
  induction k with
  | zero => exact dpure_stable []
  | succ k ih =>
    exact dbind_stable _ _ hd
      (fun a => dbind_stable _ _ ih (fun as => dpure_stable (a :: as)))

theorem decList_stable {α : Type} (d : DecM α) (hd : DStable d) :
    DStable (decList d) :=
  dbind_stable _ _ decU64_stable (fun n => decListAux_stable d hd n)

theorem decMerkle_stable : DStable decMerkle :=
  dbind_stable _ _ decU64_stable (fun _ =>
    dbind_stable _ _ decU64_stable (fun _ =>
      dbind_stable _ _ decBytes_stable (fun _ =>
        dbind_stable _ _ (decList_stable _ decBytes_stable) (fun _ =>
          dpure_stable _))))

theorem decShare_stable : DStable decShare :=
  dbind_stable _ _ (decList_stable _ decBytes_stable) (fun _ =>
    dbind_stable _ _ (decList_stable _ decBytes_stable) (fun _ =>
      dpure_stable _))

theorem decPayload_stable : DStable decPayload :=
  dbind_stable _ _ decBytes_stable (fun _ =>
    dbind_stable _ _ (readN_stable 32) (fun _ =>
      dbind_stable _ _ (readN_stable 32) (fun _ =>
        dbind_stable _ _ decMerkle_stable (fun _ =>
          dbind_stable _ _ decShare_stable (fun _ =>
            dbind_stable _ _ decNonce_stable (fun _ =>
              dbind_stable _ _ (readN_stable 32) (fun _ =>
                dbind_stable _ _ (decList_stable _ decBytes_stable) (fun _ =>
                  dpure_stable _))))))))

/-- Decoding any strict prefix of a valid encoding fails: the decoder
would need the missing suffix. -/
theorem from_bytes_prefix_fail (p : OraclePayload) (h : p.wf) (k : Nat)
    (hk : k < p.to_bytes.length) :
    OraclePayload.from_bytes (p.to_bytes.take k) = none := by
  by_contra hq
  obtain ⟨q, hq⟩ : ∃ q, OraclePayload.from_bytes (p.to_bytes.take k) = some q := by
    cases hres : OraclePayload.from_bytes (p.to_bytes.take k) with
    | none => exact absurd hres hq
    | some q => exact ⟨q, rfl⟩
  have hdec : decPayload (p.to_bytes.take k) = some (q, []) := by
    unfold OraclePayload.from_bytes at hq
    cases hres : decPayload (p.to_bytes.take k) with
    | none => rw [hres] at hq; exact absurd hq (by simp)
    | some pr =>
      obtain ⟨q', rem⟩ := pr
      rw [hres] at hq
      cases rem with
      | nil =>
        obtain rfl : q' = q := by simpa using hq
        rfl
      | cons b rem => exact absurd hq (by simp)
  obtain ⟨pre, hpre, hrun⟩ := decPayload_stable _ _ _ hdec
  rw [List.append_nil] at hpre
  have hfull : decPayload (pre ++ p.to_bytes.drop k) = some (q, p.to_bytes.drop k) :=
    hrun (p.to_bytes.drop k)
  rw [← hpre, List.take_append_drop k p.to_bytes] at hfull
  have hrt : decPayload p.to_bytes = some (p, []) := by
    have := decPayload_rt p [] h
    rwa [List.append_nil] at this
  rw [hrt] at hfull
  have hdrop : p.to_bytes.drop k = [] := by
    have : (p, ([] : List Nat)) = (q, p.to_bytes.drop k) := by
      simpa using hfull
    exact (Prod.mk.injEq _ _ _ _ ▸ this).2.symm ▸ rfl
  have : p.to_bytes.length ≤ k := List.drop_eq_nil_iff.mp hdrop
  omega

/-! ## Hint taxonomy (`crates/oracle/src/hint.rs`)

`HintWrapper` extends the base hint alphabet of the external `kona_proof`
crate with the `celestia-da` token.  The base type `HintType` is external;
the wrapper is parameterised over a base type `B` together with its
parser (`HintType::from_str`, modelled as `Option`-valued) and renderer
(`Display`). -/

/-- The error type of hint parsing (`kona_proof::errors::HintParsingError`
carries a message string). -/
structure HintParsingError where
  msg : String
deriving DecidableEq, Repr

/-- Embeds the `HintWrapper` enum: a standard base hint or the CelestiaDA
extension. -/
inductive HintWrapper (B : Type) where
  | Standard (hint : B)
  | CelestiaDA
deriving DecidableEq, Repr

/-- Embeds `HintWrapper::from_str`: try the base parser first, then the
literal token `celestia-da`, otherwise fail with an unknown-hint error. -/
def HintWrapper.from_str {B : Type} (baseParse : String → Option B)
    (s : String) : Except HintParsingError (HintWrapper B) :=
  match baseParse s with
  | some standard => Except.ok (HintWrapper.Standard standard)
  | none =>
    if s = "celestia-da" then Except.ok HintWrapper.CelestiaDA
    else Except.error (HintParsingError.mk "unknown hint")

/-- Embeds the `Display` implementation of `HintWrapper`: base hints
render through the base renderer, the extension renders as the literal
token `celestia-da`. -/
def HintWrapper.render {B : Type} (baseRender : B → String) :
    HintWrapper B → String
  | HintWrapper.Standard hint => baseRender hint
  | HintWrapper.CelestiaDA => "celestia-da"

/-! ## Guest-side provider (`crates/oracle/src/provider.rs`)

`OracleCelestiaProvider::blob_get` re-verifies every proof of the decoded
payload before yielding the blob.  The four cryptographic operations it
delegates to — the NMT share-proof verifier and the Merkle tuple-proof
verifier of `celestia_types`, the pay-for-blobs namespace parser of
`sov_celestia_adapter`, and keccak / the Merkle-Patricia verifier used by
`verify_data_commitment_storage` — are external and collected in
`CryptoFns`.

Note on the payload type: `provider.rs` deserializes an `OraclePayload`
(`crate::payload`) but then reads `payload.pfb_data`, a field which that
struct does not declare (only `BlobstreamProof` in
`crates/blobstream/src/blobstream.rs` has it, and that struct in turn has
no `blob` field).  The embedding therefore gives `blob_get` the payload
with exactly the fields its body dereferences (`GuestPayload`), which is
`OraclePayload` extended with `pfb_data`. -/

/-- A `MsgPayForBlobs` as used by the guest: only its `share_commitments`
are read (the other fields of the external protobuf type are copied,
never inspected). -/
structure Pfb where
  share_commitments : List (List Nat)
deriving DecidableEq, Repr

/-- A row of namespace data: the external
`celestia_types::row_namespace_data::NamespaceData` rows; only the shares
are read. -/
structure NamespaceRow where
  shares : List (List Nat)
deriving DecidableEq, Repr

/-- The namespace data carried as `pfb_data`. -/
structure NamespaceData where
  rows : List NamespaceRow
deriving DecidableEq, Repr

/-- The payload value as dereferenced by `blob_get` in `provider.rs`:
the `OraclePayload` fields plus `pfb_data`. -/
structure GuestPayload where
  blob : List Nat
  data_root : List Nat
  data_commitment : List Nat
  data_root_tuple_proof : MerkleProof
  share_proof : ShareProof
  pfb_data : NamespaceData
  proof_nonce : Nat
  storage_root : List Nat
  storage_proof : List (List Nat)
deriving DecidableEq, Repr

/-- The external cryptographic functions `blob_get` and the host delegate
to. -/
structure CryptoFns where
  shareVerify : ShareProof → List Nat → Except String Unit
  tupleVerify : MerkleProof → List Nat → List Nat → Except String Unit
  parsePfb : List (List Nat) → Except String (List Pfb)
  keccak : List Nat → List Nat
  mptLookup : List Nat → List Nat → List (List Nat) → Option (List Nat)

/-- Embeds `find_pfb_with_commitment` of
`crates/blobstream/src/blobstream.rs`: flatten all namespace-data shares,
parse the pay-for-blobs namespace, keep one copy of each message per
share commitment equal to the target, and fail when none matches. -/
def find_pfb_with_commitment (parsePfb : List (List Nat) → Except String (List Pfb))
    (namespace_data : NamespaceData) (target_commitment : List Nat) :
    Except String (List Pfb) :=
  let shares_vec := (namespace_data.rows.map (fun row => row.shares)).flatten
  match parsePfb shares_vec with
  | Except.error err => Except.error err
  | Except.ok pfbs =>
    let matched_pfbs :=
      (pfbs.map (fun pfb =>
        (pfb.share_commitments.filter (fun c => c = target_commitment)).map
          (fun _ => pfb))).flatten
    if matched_pfbs.length = 0 then Except.error "no matching pfbs found"
    else Except.ok matched_pfbs

/-- Result of the guest operation: a returned value, a returned error, or
a panic (`.expect` / out-of-bounds indexing aborts the guest). -/
inductive GuestResult where
  | ok (blob : List Nat)
  | err (msg : String)
  | panicked (msg : String)
deriving DecidableEq, Repr

/-- The `for pfb in pfbs` loop of `blob_get`: indexing
`share_commitments[0]` panics on an empty list, a head different from the
target commitment returns an error, otherwise the loop continues. -/
def checkPfbs : List Pfb → List Nat → Option GuestResult
  | [], _ => none
  | pfb :: rest, target =>
    match pfb.share_commitments with
    | [] => some (GuestResult.panicked "index out of bounds")
    | c0 :: _ =>
      if c0 = target then checkPfbs rest target
      else some (GuestResult.err "pfb did not contain the right commitment")

/-- Embeds `OracleCelestiaProvider::blob_get` from the decoded payload on:
count the namespace-data shares contained in the share-proof share set and
reject when any proof share is missing; find the pay-for-blobs messages
(panicking on failure); check each message's first share commitment;
verify the share proof (error return on failure); verify the
data-root-tuple proof and the Blobstream storage proof (both panic on
failure); finally yield the blob.  The `usize` subtraction producing
`remaining_shares` is modelled as truncated subtraction. -/
def blob_get (fns : CryptoFns) (height : Nat) (commitment : List Nat)
    (payload : GuestPayload) : GuestResult :=
  let proof_shares := payload.share_proof.data
  let found_shares :=
    (((payload.pfb_data.rows.map (fun row => row.shares)).flatten).filter
      (fun share => proof_shares.contains share)).length
  let remaining_shares := payload.share_proof.data.length - found_shares
  if remaining_shares > 0 then
    GuestResult.err "proof shares not found to be in namespace data"
  else
    match find_pfb_with_commitment fns.parsePfb payload.pfb_data commitment with
    | Except.error _ => GuestResult.panicked "Failed to find pfb with commitment"
    | Except.ok pfbs =>
      match checkPfbs pfbs commitment with
      | some early => early
      | none =>
        match fns.shareVerify payload.share_proof payload.data_root with
        | Except.error err => GuestResult.err err
        | Except.ok _ =>
          match fns.tupleVerify payload.data_root_tuple_proof
              (encode_data_root_tuple height payload.data_root)
              payload.data_commitment with
          | Except.error _ =>
            GuestResult.panicked "Failed to verify data root tuple proof"
          | Except.ok _ =>
            match verify_data_commitment_storage fns.keccak fns.mptLookup
                payload.storage_root payload.storage_proof
                payload.proof_nonce payload.data_commitment with
            | Except.error _ =>
              GuestResult.panicked
                "Failed to verify data commitment against Blobstream storage slot"
            | Except.ok _ => GuestResult.ok payload.blob

/-! ## Host-side witness assembler
(`bin/host/src/celestia/handler.rs`, `online_provider.rs`)

The CelestiaDA branch of `CelestiaChainHintHandler::fetch_hint` (and the
equivalent `OnlineCelestiaProvider::generate_oracle_payload`) fetches the
blob, header, share proof, Blobstream event, tuple proof and storage
proof from the network, locally verifies the three proofs, and only then
assembles and stores the serialized `OraclePayload`.  The network fetches
are parameterised as already-retrieved inputs; a fetch failure aborts the
hint before any verification and never produces a payload. -/

/-- The artifacts the host has fetched from the CelestiaDA node and the
settlement chain before verification begins. -/
structure HostInputs where
  blob : List Nat
  data_root : List Nat
  share_proof : ShareProof
  event_nonce : Nat
  event_commitment : List Nat
  tuple_proof : MerkleProof
  storage_hash : List Nat
  proof_bytes : List (List Nat)
deriving DecidableEq, Repr

/-- Result of the host-side assembler: the payload, a returned error
(`anyhow::bail!`), or a panic (`.expect`). -/
inductive HostOutcome where
  | ok (payload : OraclePayload)
  | err (msg : String)
  | panicked (msg : String)
deriving DecidableEq, Repr

/-- Embeds the verification-and-assembly tail of the host hint handler:
verify the share proof against the data root (panic on failure), verify
the data-root-tuple proof against the event's data commitment (panic on
failure), verify the Blobstream storage proof (error return on failure),
then assemble the `OraclePayload` from the fetched artifacts. -/
def generate_oracle_payload (fns : CryptoFns) (height : Nat)
    (inp : HostInputs) : HostOutcome :=
  match fns.shareVerify inp.share_proof inp.data_root with
  | Except.error _ =>
    HostOutcome.panicked "failed to verify share proof against data root"
  | Except.ok _ =>
    match fns.tupleVerify inp.tuple_proof
        (encode_data_root_tuple height inp.data_root) inp.event_commitment with
    | Except.error _ =>
      HostOutcome.panicked "failed to verify data root tuple inclusion proof"
    | Except.ok _ =>
      match verify_data_commitment_storage fns.keccak fns.mptLookup
          inp.storage_hash inp.proof_bytes inp.event_nonce
          inp.event_commitment with
      | Except.error err => HostOutcome.err ("Error verifying storage proof " ++ err)
      | Except.ok _ =>
        HostOutcome.ok
          (OraclePayload.mk inp.blob inp.data_root inp.event_commitment
            inp.tuple_proof inp.share_proof inp.event_nonce
            inp.storage_hash inp.proof_bytes)

/-- The guest view of a host-assembled payload: the `OraclePayload` fields
plus the `pfb_data` the guest dereferences, a field the host-side
`OraclePayload` does not carry (supplied separately, empty in the
composition of the two sides). -/
def guestView (p : OraclePayload) (pfb : NamespaceData) : GuestPayload :=
  GuestPayload.mk p.blob p.data_root p.data_commitment
    p.data_root_tuple_proof p.share_proof pfb p.proof_nonce
    p.storage_root p.storage_proof

/-! ## Derivation-pipeline data sources (`crates/celestia/src/source.rs`,
`crates/celestia/src/celestia.rs`)

`CelestiaDASource` caches blobs fetched from a `CelestiaProvider`;
`CelestiaDADataSource` routes pointer records from the wrapped Ethereum
data source either back to the pipeline (`EndOfSource`) or to the
Celestia source.  The external `kona_derive` error taxonomy is modelled
by the two constructors these files use. -/

/-- The `kona_derive` pipeline errors appearing in these sources. -/
inductive PipelineError where
  | Eof
  | EndOfSource
deriving DecidableEq, Repr

/-- A pipeline error with its severity (`PipelineError::temp` wraps into
`PipelineErrorKind::Temporary`). -/
inductive PipelineErrorKind where
  | Temporary (e : PipelineError)
  | Critical (e : PipelineError)
deriving DecidableEq, Repr

/-- The mutable state of `CelestiaDASource`: the cached blob queue and the
open flag (`open` is a reserved word in Lean, hence `isOpen`). -/
structure CelestiaDASource where
  data : List (List Nat)
  isOpen : Bool
deriving DecidableEq, Repr

/-- Embeds `CelestiaDASource::new`: empty queue, closed. -/
def CelestiaDASource.new : CelestiaDASource := CelestiaDASource.mk [] false

/-- Embeds `CelestiaDASource::load_blobs`: once the source is open nothing
is fetched; otherwise fetch the blob for `(height, commitment)` through
the provider (`fetch`), push it on success, and in every case mark the
source open and return `Ok(())`. -/
def CelestiaDASource.load_blobs {E : Type}
    (st : CelestiaDASource) (fetch : Nat → List Nat → Except E (List Nat))
    (height : Nat) (commitment : List Nat) :
    Except E Unit × CelestiaDASource :=
  if st.isOpen then (Except.ok (), st)
  else
    match fetch height commitment with
    | Except.ok blob => (Except.ok (), CelestiaDASource.mk (st.data ++ [blob]) true)
    | Except.error _ => (Except.ok (), CelestiaDASource.mk st.data true)

/-- Embeds `CelestiaDASource::next_data`: a temporary `Eof` when the queue
is empty, otherwise the queue's front. -/
def CelestiaDASource.next_data (st : CelestiaDASource) :
    Except PipelineErrorKind (List Nat) × CelestiaDASource :=
  match st.data with
  | [] => (Except.error (PipelineErrorKind.Temporary PipelineError.Eof), st)
  | d :: rest => (Except.ok d, CelestiaDASource.mk rest st.isOpen)

/-- Embeds `CelestiaDASource::next`: load blobs (provider errors are
converted by `?` were `load_blobs` ever to return one — it never does),
then pop the next datum. -/
def CelestiaDASource.next {E : Type}
    (st : CelestiaDASource) (fetch : Nat → List Nat → Except E (List Nat))
    (toPipeline : E → PipelineErrorKind) (height : Nat) (commitment : List Nat) :
    Except PipelineErrorKind (List Nat) × CelestiaDASource :=
  match st.load_blobs fetch height commitment with
  | (Except.error e, st') => (Except.error (toPipeline e), st')
  | (Except.ok _, st') => st'.next_data

/-- Embeds `CelestiaDASource::clear`: drop the queue and close the
source. -/
def CelestiaDASource.clear (_st : CelestiaDASource) : CelestiaDASource :=
  CelestiaDASource.mk [] false

deriving instance DecidableEq for Except

/-- Result of `CelestiaDADataSource::next`: a pipeline result, or a panic
from unchecked indexing/slicing of the pointer record. -/
inductive DDResult where
  | ret (r : Except PipelineErrorKind (List Nat))
  | panicked (msg : String)
deriving DecidableEq, Repr

/-- Embeds `CelestiaDADataSource::next`, parameterised by the outcome of
`ethereum_source.next` (`ethResult`).  The pointer record is indexed at
`[2]` and sliced at `[3..11]` and `[11..43]` with no length checks, so a
record too short for the access panics.  A version byte other than `0x0c`
surfaces a temporary `EndOfSource`; otherwise the little-endian height
and the commitment are parsed and the Celestia source is consulted. -/
def CelestiaDADataSource.next {E : Type}
    (ethResult : Except PipelineErrorKind (List Nat))
    (st : CelestiaDASource) (fetch : Nat → List Nat → Except E (List Nat))
    (toPipeline : E → PipelineErrorKind) : DDResult × CelestiaDASource :=
  match ethResult with
  | Except.error e => (DDResult.ret (Except.error e), st)
  | Except.ok pointer_data =>
    if pointer_data.length < 3 then
      (DDResult.panicked "index out of bounds", st)
    else if pointer_data.getD 2 0 ≠ 0x0c then
      (DDResult.ret (Except.error
        (PipelineErrorKind.Temporary PipelineError.EndOfSource)), st)
    else if pointer_data.length < 11 then
      (DDResult.panicked "range end index out of range", st)
    else if pointer_data.length < 43 then
      (DDResult.panicked "range end index out of range", st)
    else
      let height := ofLE ((pointer_data.drop 3).take 8)
      let commitment := (pointer_data.drop 11).take 32
      match st.next fetch toPipeline height commitment with
      | (Except.error e, st') => (DDResult.ret (Except.error e), st')
      | (Except.ok blob, st') => (DDResult.ret (Except.ok blob), st')

/-! ## Claim C4: layout of `encode_data_root_tuple` -/

/-- C4: for every `u64` height `h` and 32-byte data root `r`,
`encode_data_root_tuple h r` is exactly 64 bytes: bytes `[0..24]` are
zero, bytes `[24..32]` are `h` in big-endian (their big-endian value is
`h`), and bytes `[32..64]` are `r`. -/
theorem c4_encode_data_root_tuple_layout (h : Nat) (r : List Nat)
    (hh : h < 2 ^ 64) (hr : r.length = 32) :
    (encode_data_root_tuple h r).length = 64 ∧
    (encode_data_root_tuple h r).take 24 = List.replicate 24 0 ∧
    ((encode_data_root_tuple h r).drop 24).take 8 = beBytes 8 h ∧
    ofBE (beBytes 8 h) = h ∧
    (encode_data_root_tuple h r).drop 32 = r := by
  unfold encode_data_root_tuple
  refine ⟨?_, ?_, ?_, ?_, ?_⟩
  · simp [List.length_append, beBytes_length, hr]
  · rw [List.append_assoc,
      take_append_len (List.replicate 24 0) _ 24 (by simp)]
  · rw [List.append_assoc,
      drop_append_len (List.replicate 24 0) _ 24 (by simp),
      take_append_len (beBytes 8 h) r 8 (beBytes_length 8 h)]
  · exact ofBE_beBytes_of_lt (by norm_num at hh ⊢; exact hh)
  · rw [List.append_assoc, ← List.append_assoc,
      drop_append_len (List.replicate 24 0 ++ beBytes 8 h) r 32
        (by simp [beBytes_length])]

/-- Witness for C4 at `h = 42`, `r = 0x11…11`. -/
theorem c4_encode_data_root_tuple_layout_witness :
    (encode_data_root_tuple 42 (List.replicate 32 17)).length = 64 ∧
    (encode_data_root_tuple 42 (List.replicate 32 17)).take 24 =
      List.replicate 24 0 ∧
    ((encode_data_root_tuple 42 (List.replicate 32 17)).drop 24).take 8 =
      beBytes 8 42 ∧
    ofBE (beBytes 8 42) = 42 ∧
    (encode_data_root_tuple 42 (List.replicate 32 17)).drop 32 =
      List.replicate 32 17 :=
  c4_encode_data_root_tuple_layout 42 (List.replicate 32 17)
    (by norm_num) (by decide)

/-! ## Claim C3: `verify_data_commitment_storage` -/

/-- C3: for every keccak function, Merkle-Patricia resolution, storage
root, proof-node list, nonce `n` and commitment `c`:
`verify_data_commitment_storage` succeeds exactly when the proof resolves,
at key nibbles `unpack(keccak(keccak(be32(n) ++ be32(254))))` under the
root, to exactly the 33 bytes `0xa0 :: c`; the mapping slot 254 is the
named constant `DATA_COMMITMENTS_SLOT`; and whenever verification with
the `0xa0` prefix succeeds, verification of the same proof with the
prefix omitted fails. -/
theorem c3_verify_data_commitment_storage (keccak : List Nat → List Nat)
    (mptLookup : List Nat → List Nat → List (List Nat) → Option (List Nat))
    (root : List Nat) (proof : List (List Nat)) (n : Nat) (c : List Nat) :
    (verify_data_commitment_storage keccak mptLookup root proof n c =
        Except.ok () ↔
      mptLookup root
        (nibblesUnpack (keccak (keccak (beBytes 32 n ++ beBytes 32 254))))
        proof = some (0xa0 :: c)) ∧
    DATA_COMMITMENTS_SLOT = 254 ∧
    (verify_data_commitment_storage keccak mptLookup root proof n c =
        Except.ok () →
      verifyProofMPT mptLookup root
        (nibblesUnpack
          (keccak (calculate_mapping_slot keccak DATA_COMMITMENTS_SLOT n)))
        (some c) proof ≠ Except.ok ()) := by
  have hkey :
      calculate_mapping_slot keccak DATA_COMMITMENTS_SLOT n =
        keccak (beBytes 32 n ++ beBytes 32 254) := by
    unfold calculate_mapping_slot DATA_COMMITMENTS_SLOT
    rfl
  have hmain :
      verify_data_commitment_storage keccak mptLookup root proof n c =
          Except.ok () ↔
        mptLookup root
          (nibblesUnpack (keccak (keccak (beBytes 32 n ++ beBytes 32 254))))
          proof = some (0xa0 :: c) := by
    unfold verify_data_commitment_storage verifyProofMPT
    rw [hkey]
    by_cases hc :
        mptLookup root
          (nibblesUnpack (keccak (keccak (beBytes 32 n ++ beBytes 32 254))))
          proof = some (0xa0 :: c)
    · simp [hc]
    · simp [hc]
  refine ⟨hmain, rfl, ?_⟩
  intro hok
  have hres := hmain.mp hok
  unfold verifyProofMPT
  rw [hkey, hres]
  have hne : some (0xa0 :: c) ≠ some c := by
    intro hcontra
    have : (0xa0 :: c).length = c.length := by rw [Option.some_inj.mp hcontra]
    simp at this
  rw [if_neg hne]
  simp

/-- The keccak instantiation used by the C3 witness. -/
def keccakW : List Nat → List Nat := fun bs => List.replicate 32 (bs.length % 256)

/-- The Merkle-Patricia resolution instantiation used by the C3 witness:
every proof resolves to the 33 bytes `0xa0` followed by 32 bytes `7`. -/
def mptLookupW : List Nat → List Nat → List (List Nat) → Option (List Nat) :=
  fun _ _ _ => some (0xa0 :: List.replicate 32 7)

/-- Witness for C3: with a concrete resolution holding `0xa0 || c`,
verification succeeds, and verification with the prefix omitted fails. -/
theorem c3_verify_data_commitment_storage_witness :
    verify_data_commitment_storage keccakW mptLookupW [] [] 0
        (List.replicate 32 7) = Except.ok () ∧
    verifyProofMPT mptLookupW []
        (nibblesUnpack
          (keccakW (calculate_mapping_slot keccakW DATA_COMMITMENTS_SLOT 0)))
        (some (List.replicate 32 7)) [] ≠ Except.ok () :=
  ⟨by decide,
    (c3_verify_data_commitment_storage keccakW mptLookupW [] [] 0
        (List.replicate 32 7)).2.2 (by decide)⟩

/-! ## Claim C5: payload codec round trip -/

/-- C5: for every well-formed payload value `p`,
`OraclePayload::from_bytes (p.to_bytes)` succeeds and returns `p`. -/
theorem c5_payload_roundtrip (p : OraclePayload) (h : p.wf) :
    OraclePayload.from_bytes p.to_bytes = some p := by
  unfold OraclePayload.from_bytes
  have hdec := decPayload_rt p [] h
  rw [List.append_nil] at hdec
  rw [hdec]

/-- A concrete payload value exercising every field shape. -/
def pEx : OraclePayload :=
  OraclePayload.mk [222, 173, 190, 239] (List.replicate 32 1)
    (List.replicate 32 2) (MerkleProof.mk 4 1 (List.replicate 32 3) [[4, 5]])
    (ShareProof.mk [[7, 7]] [[8]]) 9 (List.replicate 32 10) [[11, 12]]

/-- Witness for C5 at the concrete payload `pEx`. -/
theorem c5_payload_roundtrip_witness :
    pEx.wf ∧ OraclePayload.from_bytes pEx.to_bytes = some pEx :=
  ⟨by decide, c5_payload_roundtrip pEx (by decide)⟩

/-! ## Claim C6: strict decoding -/

/-- C6: for every well-formed payload `p`, decoding rejects every input
made of the encoding of `p` followed by trailing bytes, and every strict
prefix of the encoding of `p`. -/
theorem c6_decode_strict (p : OraclePayload) (h : p.wf) :
    (∀ junk : List Nat, junk ≠ [] →
      OraclePayload.from_bytes (p.to_bytes ++ junk) = none) ∧
    (∀ k : Nat, k < p.to_bytes.length →
      OraclePayload.from_bytes (p.to_bytes.take k) = none) := by
  constructor
  · intro junk hjunk
    unfold OraclePayload.from_bytes
    rw [decPayload_rt p junk h]
    cases junk with
    | nil => exact absurd rfl hjunk
    | cons b bs => rfl
  · intro k hk
    exact from_bytes_prefix_fail p h k hk

/-- Witness for C6 at the concrete payload `pEx`, one trailing zero byte
and the three-byte prefix. -/
theorem c6_decode_strict_witness :
    OraclePayload.from_bytes (pEx.to_bytes ++ [0]) = none ∧
    OraclePayload.from_bytes (pEx.to_bytes.take 3) = none :=
  ⟨(c6_decode_strict pEx (by decide)).1 [0] (by decide),
    (c6_decode_strict pEx (by decide)).2 3 (by decide)⟩

/-! ## Claim C7: hint taxonomy round trip -/

/-- C7: for every base hint alphabet whose parser inverts its renderer
and which does not claim the reserved token `celestia-da`: rendering then
parsing is the identity on both hint variants, `celestia-da` parses to
the CelestiaDA variant, a string the base alphabet accepts parses to the
corresponding standard hint (the base alphabet is tried first), and any
other string fails with the unknown-hint parsing error. -/
theorem c7_hint_roundtrip {B : Type} (baseParse : String → Option B)
    (baseRender : B → String)
    (hbase : ∀ b, baseParse (baseRender b) = some b)
    (hreserved : baseParse "celestia-da" = none) :
    (∀ w : HintWrapper B,
      HintWrapper.from_str baseParse (HintWrapper.render baseRender w) =
        Except.ok w) ∧
    HintWrapper.from_str baseParse "celestia-da" =
      Except.ok HintWrapper.CelestiaDA ∧
    (∀ s b, baseParse s = some b →
      HintWrapper.from_str baseParse s =
        Except.ok (HintWrapper.Standard b)) ∧
    (∀ s, baseParse s = none → s ≠ "celestia-da" →
      HintWrapper.from_str baseParse s =
        Except.error (HintParsingError.mk "unknown hint")) := by
  refine ⟨?_, ?_, ?_, ?_⟩
  · intro w
    cases w with
    | Standard b =>
      unfold HintWrapper.from_str HintWrapper.render
      rw [hbase b]
    | CelestiaDA =>
      unfold HintWrapper.from_str HintWrapper.render
      rw [hreserved]
      simp
  · unfold HintWrapper.from_str
    rw [hreserved]
    simp
  · intro s b hs
    unfold HintWrapper.from_str
    rw [hs]
  · intro s hs hne
    unfold HintWrapper.from_str
    rw [hs]
    simp [hne]

/-- The base parser of the C7 witness: a one-token base alphabet. -/
def baseParseW : String → Option Unit :=
  fun s => if s = "l1-block-header" then some () else none

/-- The base renderer of the C7 witness. -/
def baseRenderW : Unit → String := fun _ => "l1-block-header"

/-- Witness for C7 at a concrete one-token base alphabet: both variants
round-trip, the reserved token parses to CelestiaDA, and an unknown
string fails. -/
theorem c7_hint_roundtrip_witness :
    HintWrapper.from_str baseParseW
        (HintWrapper.render baseRenderW (HintWrapper.Standard ())) =
      Except.ok (HintWrapper.Standard ()) ∧
    HintWrapper.from_str baseParseW "celestia-da" =
      Except.ok HintWrapper.CelestiaDA ∧
    HintWrapper.from_str baseParseW "bogus" =
      Except.error (HintParsingError.mk "unknown hint") :=
  ⟨(c7_hint_roundtrip baseParseW baseRenderW (by intro b; cases b; decide)
      (by decide)).1 (HintWrapper.Standard ()),
    (c7_hint_roundtrip baseParseW baseRenderW (by intro b; cases b; decide)
      (by decide)).2.1,
    (c7_hint_roundtrip baseParseW baseRenderW (by intro b; cases b; decide)
      (by decide)).2.2.2 "bogus" (by decide) (by decide)⟩

/-! ## Claim C8: pointer dispatch in `CelestiaDADataSource::next` -/

/-- C8: for every pointer record from the wrapped Ethereum source, every
Celestia-source state and every provider: when the record's byte at index
2 differs from `0x0c`, `next` returns a temporary `EndOfSource`, leaves
the Celestia-source state untouched, and the outcome is the same for
every provider (no hint, no blob fetch); when that byte equals `0x0c`
(and the record is at least the 43 pointer bytes long), `next` parses the
height as the little-endian `u64` of bytes `3..11` and the commitment as
bytes `11..43` and returns exactly what the Celestia source yields for
that pair. -/
theorem ddnext_ok_eval {E : Type} (pointer : List Nat)
    (st : CelestiaDASource) (fetch : Nat → List Nat → Except E (List Nat))
    (toPipeline : E → PipelineErrorKind) :
    CelestiaDADataSource.next (Except.ok pointer) st fetch toPipeline =
      (if pointer.length < 3 then (DDResult.panicked "index out of bounds", st)
      else if pointer.getD 2 0 ≠ 0x0c then
        (DDResult.ret (Except.error
          (PipelineErrorKind.Temporary PipelineError.EndOfSource)), st)
      else if pointer.length < 11 then
        (DDResult.panicked "range end index out of range", st)
      else if pointer.length < 43 then
        (DDResult.panicked "range end index out of range", st)
      else
        match st.next fetch toPipeline (ofLE ((pointer.drop 3).take 8))
            ((pointer.drop 11).take 32) with
        | (Except.error e, st') => (DDResult.ret (Except.error e), st')
        | (Except.ok blob, st') => (DDResult.ret (Except.ok blob), st')) := rfl

theorem c8_pointer_dispatch {E : Type} (pointer : List Nat)
    (st : CelestiaDASource) (fetch : Nat → List Nat → Except E (List Nat))
    (toPipeline : E → PipelineErrorKind) :
    (3 ≤ pointer.length → pointer.getD 2 0 ≠ 0x0c →
      CelestiaDADataSource.next (Except.ok pointer) st fetch toPipeline =
        (DDResult.ret (Except.error
          (PipelineErrorKind.Temporary PipelineError.EndOfSource)), st)) ∧
    (43 ≤ pointer.length → pointer.getD 2 0 = 0x0c →
      CelestiaDADataSource.next (Except.ok pointer) st fetch toPipeline =
        (DDResult.ret
          (st.next fetch toPipeline (ofLE ((pointer.drop 3).take 8))
            ((pointer.drop 11).take 32)).1,
          (st.next fetch toPipeline (ofLE ((pointer.drop 3).take 8))
            ((pointer.drop 11).take 32)).2)) := by
  constructor
  · intro hlen hv
    rw [ddnext_ok_eval]
    rw [if_neg (by omega), if_pos hv]
  · intro hlen hv
    rw [ddnext_ok_eval]
    rw [if_neg (by omega), if_neg (not_not_intro hv), if_neg (by omega),
      if_neg (by omega)]
    cases hres : st.next fetch toPipeline (ofLE ((pointer.drop 3).take 8))
        ((pointer.drop 11).take 32) with
    | mk r st' =>
      cases r with
      | error e => simp
      | ok blob => simp

/-- A 43-byte pointer with a non-Celestia version byte. -/
def pointerOther : List Nat :=
  [1, 0, 0] ++ leBytes 8 42 ++ List.replicate 32 5

/-- A 43-byte CelestiaDA pointer: version byte `0x0c`, height 42
little-endian, commitment `0x05…05`. -/
def pointerCel : List Nat :=
  [1, 0, 12] ++ leBytes 8 42 ++ List.replicate 32 5

/-- A provider for the C8/C9 witnesses that returns a fixed blob. -/
def fetchOk : Nat → List Nat → Except String (List Nat) :=
  fun _ _ => Except.ok [222, 173]

/-- The provider-error conversion used by the witnesses. -/
def toPipelineW : String → PipelineErrorKind :=
  fun _ => PipelineErrorKind.Temporary PipelineError.Eof

/-- Witness for C8: the non-Celestia pointer surfaces `EndOfSource`
without touching the closed source; the CelestiaDA pointer yields the
blob fetched for height 42 and commitment `0x05…05`. -/
theorem c8_pointer_dispatch_witness :
    CelestiaDADataSource.next (Except.ok pointerOther) CelestiaDASource.new
        fetchOk toPipelineW =
      (DDResult.ret (Except.error
        (PipelineErrorKind.Temporary PipelineError.EndOfSource)),
        CelestiaDASource.new) ∧
    CelestiaDADataSource.next (Except.ok pointerCel) CelestiaDASource.new
        fetchOk toPipelineW =
      (DDResult.ret
        (CelestiaDASource.new.next fetchOk toPipelineW
          (ofLE ((pointerCel.drop 3).take 8)) ((pointerCel.drop 11).take 32)).1,
        (CelestiaDASource.new.next fetchOk toPipelineW
          (ofLE ((pointerCel.drop 3).take 8)) ((pointerCel.drop 11).take 32)).2) :=
  ⟨(c8_pointer_dispatch pointerOther CelestiaDASource.new fetchOk
      toPipelineW).1 (by decide) (by decide),
    (c8_pointer_dispatch pointerCel CelestiaDASource.new fetchOk
      toPipelineW).2 (by decide) (by decide)⟩

/-! ## Claim C9: the Celestia source swallows provider errors -/

/-- C9: for every provider whose `blob_get` fails on `(height,
commitment)`: `load_blobs` on a closed source marks it open with an empty
queue and returns `Ok`; `next` therefore yields a temporary `Eof` instead
of the provider's error; every later `next` on the open source yields the
same temporary `Eof` for every provider, height and commitment — the
fetch is never retried — and `clear` closes the source again. -/
theorem c9_provider_error_swallowed {E : Type}
    (fetch : Nat → List Nat → Except E (List Nat))
    (toPipeline : E → PipelineErrorKind) (height : Nat)
    (commitment : List Nat) (e : E)
    (hfail : fetch height commitment = Except.error e) :
    CelestiaDASource.load_blobs (CelestiaDASource.mk [] false) fetch height
        commitment =
      (Except.ok (), CelestiaDASource.mk [] true) ∧
    CelestiaDASource.next (CelestiaDASource.mk [] false) fetch toPipeline
        height commitment =
      (Except.error (PipelineErrorKind.Temporary PipelineError.Eof),
        CelestiaDASource.mk [] true) ∧
    (∀ (fetch2 : Nat → List Nat → Except E (List Nat)) (h2 : Nat)
        (c2 : List Nat),
      CelestiaDASource.next (CelestiaDASource.mk [] true) fetch2 toPipeline
          h2 c2 =
        (Except.error (PipelineErrorKind.Temporary PipelineError.Eof),
          CelestiaDASource.mk [] true)) ∧
    CelestiaDASource.clear (CelestiaDASource.mk [] true) =
      CelestiaDASource.mk [] false := by
  have hload :
      CelestiaDASource.load_blobs (CelestiaDASource.mk [] false) fetch height
          commitment =
        (Except.ok (), CelestiaDASource.mk [] true) := by
    unfold CelestiaDASource.load_blobs
    rw [if_neg (by simp)]
    rw [hfail]
  refine ⟨hload, ?_, ?_, rfl⟩
  · unfold CelestiaDASource.next
    rw [hload]
    rfl
  · intro fetch2 h2 c2
    unfold CelestiaDASource.next CelestiaDASource.load_blobs
    rw [if_pos rfl]
    rfl

/-- A provider for the C9 witness that always fails. -/
def fetchFail : Nat → List Nat → Except String (List Nat) :=
  fun _ _ => Except.error "celestia blob not found"

/-- Witness for C9: after a failed fetch the source answers a temporary
`Eof`, keeps answering `Eof` even against a provider that would now
succeed, and `clear` resets it. -/
theorem c9_provider_error_swallowed_witness :
    CelestiaDASource.next (CelestiaDASource.mk [] false) fetchFail
        toPipelineW 42 (List.replicate 32 5) =
      (Except.error (PipelineErrorKind.Temporary PipelineError.Eof),
        CelestiaDASource.mk [] true) ∧
    CelestiaDASource.next (CelestiaDASource.mk [] true) fetchOk toPipelineW
        42 (List.replicate 32 5) =
      (Except.error (PipelineErrorKind.Temporary PipelineError.Eof),
        CelestiaDASource.mk [] true) ∧
    CelestiaDASource.clear (CelestiaDASource.mk [] true) =
      CelestiaDASource.mk [] false :=
  ⟨(c9_provider_error_swallowed fetchFail toPipelineW 42
      (List.replicate 32 5) "celestia blob not found" (by decide)).2.1,
    (c9_provider_error_swallowed fetchFail toPipelineW 42
      (List.replicate 32 5) "celestia blob not found" (by decide)).2.2.1
      fetchOk 42 (List.replicate 32 5),
    (c9_provider_error_swallowed fetchFail toPipelineW 42
      (List.replicate 32 5) "celestia blob not found" (by decide)).2.2.2⟩

/-! ## Claim C10: unchecked pointer indexing panics -/

/-- C10: for every Celestia-source state and provider, a record from the
base Ethereum source shorter than 3 bytes makes
`CelestiaDADataSource::next` panic at the `pointer_data[2]` index, and a
record whose byte at index 2 equals `0x0c` but which is shorter than 43
bytes makes it panic at the `[3..11]`/`[11..43]` slices — neither case
returns an error. -/
theorem c10_short_pointer_panics {E : Type} (pointer : List Nat)
    (st : CelestiaDASource) (fetch : Nat → List Nat → Except E (List Nat))
    (toPipeline : E → PipelineErrorKind) :
    (pointer.length < 3 →
      (CelestiaDADataSource.next (Except.ok pointer) st fetch toPipeline).1 =
        DDResult.panicked "index out of bounds") ∧
    (3 ≤ pointer.length → pointer.getD 2 0 = 0x0c → pointer.length < 43 →
      (CelestiaDADataSource.next (Except.ok pointer) st fetch toPipeline).1 =
        DDResult.panicked "range end index out of range") := by
  constructor
  · intro hlen
    rw [ddnext_ok_eval]
    rw [if_pos hlen]
  · intro hlen hv hshort
    rw [ddnext_ok_eval]
    rw [if_neg (by omega), if_neg (not_not_intro hv)]
    by_cases h11 : pointer.length < 11
    · rw [if_pos h11]
    · rw [if_neg h11, if_pos (by omega)]

/-- Witness for C10: the empty record panics at the version-byte index,
and a three-byte CelestiaDA record panics at the height slice. -/
theorem c10_short_pointer_panics_witness :
    (CelestiaDADataSource.next (Except.ok []) CelestiaDASource.new fetchOk
        toPipelineW).1 = DDResult.panicked "index out of bounds" ∧
    (CelestiaDADataSource.next (Except.ok [1, 0, 12]) CelestiaDASource.new
        fetchOk toPipelineW).1 =
      DDResult.panicked "range end index out of range" :=
  ⟨(c10_short_pointer_panics [] CelestiaDASource.new fetchOk
      toPipelineW).1 (by decide),
    (c10_short_pointer_panics [1, 0, 12] CelestiaDASource.new fetchOk
      toPipelineW).2 (by decide) (by decide) (by decide)⟩

/-! ## Claims C1 and C2: the guest verifications and the host↔guest
invariant -/

/-- The `for pfb in pfbs` loop never produces a successful result: its
early exits are an error return or a panic. -/
theorem checkPfbs_some_not_ok (pfbs : List Pfb) (target : List Nat)
    (early : GuestResult) (h : checkPfbs pfbs target = some early) :
    ∀ b : List Nat, early ≠ GuestResult.ok b := by
  induction pfbs with
  | nil => exact absurd h (by simp [checkPfbs])
  | cons pfb rest ih =>
    unfold checkPfbs at h
    split at h
    · obtain rfl : GuestResult.panicked "index out of bounds" = early := by
        simpa using h
      intro b hcontra
      exact GuestResult.noConfusion hcontra
    · split at h
      · exact ih h
      · obtain rfl :
            GuestResult.err "pfb did not contain the right commitment" = early := by
          simpa using h
        intro b hcontra
        exact GuestResult.noConfusion hcontra

/-- The pay-for-blobs pre-checks of `blob_get` pass: no proof share is
missing from the namespace data, the pay-for-blobs lookup succeeds, and
every found message carries the expected first share commitment. -/
def pfb_stage_passes (parsePfb : List (List Nat) → Except String (List Pfb))
    (commitment : List Nat) (p : GuestPayload) : Bool :=
  decide (p.share_proof.data.length -
    (((p.pfb_data.rows.map (fun row => row.shares)).flatten).filter
      (fun share => p.share_proof.data.contains share)).length = 0) &&
  (match find_pfb_with_commitment parsePfb p.pfb_data commitment with
   | Except.ok pfbs => decide (checkPfbs pfbs commitment = none)
   | Except.error _ => false)

theorem pfb_stage_passes_spec (parsePfb : List (List Nat) → Except String (List Pfb))
    (commitment : List Nat) (p : GuestPayload)
    (h : pfb_stage_passes parsePfb commitment p = true) :
    p.share_proof.data.length -
      (((p.pfb_data.rows.map (fun row => row.shares)).flatten).filter
        (fun share => p.share_proof.data.contains share)).length = 0 ∧
    ∃ pfbs, find_pfb_with_commitment parsePfb p.pfb_data commitment =
        Except.ok pfbs ∧ checkPfbs pfbs commitment = none := by
  unfold pfb_stage_passes at h
  rw [Bool.and_eq_true] at h
  obtain ⟨h1, h2⟩ := h
  refine ⟨of_decide_eq_true h1, ?_⟩
  cases hf : find_pfb_with_commitment parsePfb p.pfb_data commitment with
  | error e =>
    rw [hf] at h2
    exact absurd h2 (by simp)
  | ok pfbs =>
    rw [hf] at h2
    exact ⟨pfbs, rfl, of_decide_eq_true h2⟩

/-- When the pay-for-blobs pre-checks pass, `blob_get` reduces to the
three-verification tail: an error return on a share-proof failure, a
panic on a tuple-proof or storage failure, and the blob otherwise. -/
theorem blob_get_verification_eq (fns : CryptoFns) (height : Nat)
    (commitment : List Nat) (p : GuestPayload)
    (hp : pfb_stage_passes fns.parsePfb commitment p = true) :
    blob_get fns height commitment p =
      (match fns.shareVerify p.share_proof p.data_root with
      | Except.error err => GuestResult.err err
      | Except.ok _ =>
        match fns.tupleVerify p.data_root_tuple_proof
            (encode_data_root_tuple height p.data_root) p.data_commitment with
        | Except.error _ =>
          GuestResult.panicked "Failed to verify data root tuple proof"
        | Except.ok _ =>
          match verify_data_commitment_storage fns.keccak fns.mptLookup
              p.storage_root p.storage_proof p.proof_nonce
              p.data_commitment with
          | Except.error _ =>
            GuestResult.panicked
              "Failed to verify data commitment against Blobstream storage slot"
          | Except.ok _ => GuestResult.ok p.blob) := by
  obtain ⟨hrem, pfbs, hfind, hchk⟩ :=
    pfb_stage_passes_spec fns.parsePfb commitment p hp
  simp only [blob_get]
  rw [if_neg (by omega)]
  simp only [hfind, hchk]

/-- `blob_get` yields a blob only through the final branch: the returned
bytes are the payload's blob and all three verifications succeeded. -/
theorem blob_get_ok_inversion (fns : CryptoFns) (height : Nat)
    (commitment : List Nat) (p : GuestPayload) (b : List Nat)
    (hok : blob_get fns height commitment p = GuestResult.ok b) :
    b = p.blob ∧
    fns.shareVerify p.share_proof p.data_root = Except.ok () ∧
    fns.tupleVerify p.data_root_tuple_proof
      (encode_data_root_tuple height p.data_root) p.data_commitment =
        Except.ok () ∧
    verify_data_commitment_storage fns.keccak fns.mptLookup p.storage_root
      p.storage_proof p.proof_nonce p.data_commitment = Except.ok () := by
  simp only [blob_get] at hok
  split at hok
  · exact absurd hok (by simp)
  · split at hok
    · exact absurd hok (by simp)
    · rename_i pfbs hfind
      split at hok
      · rename_i early hchk
        exact absurd hok (checkPfbs_some_not_ok pfbs commitment early hchk b)
      · split at hok
        · exact absurd hok (by simp)
        · rename_i u hshare
          split at hok
          · exact absurd hok (by simp)
          · rename_i u2 htuple
            split at hok
            · exact absurd hok (by simp)
            · rename_i u3 hstorage
              obtain rfl : p.blob = b := by simpa using hok
              cases u
              cases u2
              cases u3
              exact ⟨rfl, hshare, htuple, hstorage⟩

/-- The verifier bundle of the C1 counterexample: the share proof
verifies, the data-root-tuple proof does not, and the pay-for-blobs
parser finds one message carrying the expected commitment. -/
def fnsTupleFail : CryptoFns :=
  CryptoFns.mk (fun _ _ => Except.ok ())
    (fun _ _ _ => Except.error "invalid proof")
    (fun _ => Except.ok [Pfb.mk [List.replicate 32 6]])
    keccakW (fun _ _ _ => none)

/-- The verifier bundle of the C1 witness: every verification succeeds
(the Merkle-Patricia resolution holds `0xa0` followed by the payload's
data commitment). -/
def fnsAllOk : CryptoFns :=
  CryptoFns.mk (fun _ _ => Except.ok ())
    (fun _ _ _ => Except.ok ())
    (fun _ => Except.ok [Pfb.mk [List.replicate 32 6]])
    keccakW (fun _ _ _ => some (0xa0 :: List.replicate 32 2))

/-- A decoded guest payload whose pay-for-blobs pre-checks pass (no
shares to match, one message with the expected commitment). -/
def pGuest : GuestPayload :=
  GuestPayload.mk [1, 2, 3] (List.replicate 32 1) (List.replicate 32 2)
    (MerkleProof.mk 1 0 (List.replicate 32 3) []) (ShareProof.mk [] [])
    (NamespaceData.mk []) 0 (List.replicate 32 4) []

/-- Counterexample to C1 as stated: on a payload whose share proof
verifies but whose data-root-tuple proof does not, `blob_get` panics
(aborting the guest) instead of returning a `ProofInvalid`-class error. -/
theorem c1_counterexample_tuple_failure_panics :
    blob_get fnsTupleFail 7 (List.replicate 32 6) pGuest =
      GuestResult.panicked "Failed to verify data root tuple proof" := by
  decide

/-- C1 amended: `blob_get` returns a blob only when all three
verifications succeed (and the blob is the payload's); when the
pay-for-blobs pre-checks pass, it returns the blob exactly when the three
verifications succeed, returns an error when the share-proof verification
fails, and panics — never returning the blob, but not returning an error
either — when the data-root-tuple or storage verification fails. -/
theorem c1_blob_get_amended (fns : CryptoFns) (height : Nat)
    (commitment : List Nat) (p : GuestPayload) :
    (∀ b, blob_get fns height commitment p = GuestResult.ok b →
      b = p.blob ∧
      fns.shareVerify p.share_proof p.data_root = Except.ok () ∧
      fns.tupleVerify p.data_root_tuple_proof
        (encode_data_root_tuple height p.data_root) p.data_commitment =
          Except.ok () ∧
      verify_data_commitment_storage fns.keccak fns.mptLookup p.storage_root
        p.storage_proof p.proof_nonce p.data_commitment = Except.ok ()) ∧
    (pfb_stage_passes fns.parsePfb commitment p = true →
      (blob_get fns height commitment p = GuestResult.ok p.blob ↔
        fns.shareVerify p.share_proof p.data_root = Except.ok () ∧
        fns.tupleVerify p.data_root_tuple_proof
          (encode_data_root_tuple height p.data_root) p.data_commitment =
            Except.ok () ∧
        verify_data_commitment_storage fns.keccak fns.mptLookup
          p.storage_root p.storage_proof p.proof_nonce p.data_commitment =
            Except.ok ()) ∧
      (∀ e, fns.shareVerify p.share_proof p.data_root = Except.error e →
        blob_get fns height commitment p = GuestResult.err e) ∧
      (∀ e, fns.shareVerify p.share_proof p.data_root = Except.ok () →
        fns.tupleVerify p.data_root_tuple_proof
          (encode_data_root_tuple height p.data_root) p.data_commitment =
            Except.error e →
        blob_get fns height commitment p =
          GuestResult.panicked "Failed to verify data root tuple proof") ∧
      (∀ e, fns.shareVerify p.share_proof p.data_root = Except.ok () →
        fns.tupleVerify p.data_root_tuple_proof
          (encode_data_root_tuple height p.data_root) p.data_commitment =
            Except.ok () →
        verify_data_commitment_storage fns.keccak fns.mptLookup
          p.storage_root p.storage_proof p.proof_nonce p.data_commitment =
            Except.error e →
        blob_get fns height commitment p =
          GuestResult.panicked
            "Failed to verify data commitment against Blobstream storage slot")) := by
  constructor
  · intro b hok
    exact blob_get_ok_inversion fns height commitment p b hok
  · intro hp
    rw [blob_get_verification_eq fns height commitment p hp]
    refine ⟨?_, ?_, ?_, ?_⟩
    · constructor
      · intro hEq
        cases hsv : fns.shareVerify p.share_proof p.data_root with
        | error e => rw [hsv] at hEq; exact absurd hEq (by simp)
        | ok u =>
          rw [hsv] at hEq
          cases htv : fns.tupleVerify p.data_root_tuple_proof
              (encode_data_root_tuple height p.data_root) p.data_commitment with
          | error e => rw [htv] at hEq; exact absurd hEq (by simp)
          | ok u2 =>
            rw [htv] at hEq
            cases hvs : verify_data_commitment_storage fns.keccak
                fns.mptLookup p.storage_root p.storage_proof p.proof_nonce
                p.data_commitment with
            | error e => rw [hvs] at hEq; exact absurd hEq (by simp)
            | ok u3 =>
              cases u
              cases u2
              cases u3
              exact ⟨rfl, rfl, rfl⟩
      · intro hcond
        obtain ⟨hsv, htv, hvs⟩ := hcond
        rw [hsv, htv, hvs]
    · intro e hsv
      rw [hsv]
    · intro e hsv htv
      rw [hsv, htv]
    · intro e hsv htv hvs
      rw [hsv, htv, hvs]

/-- Witness for the amended C1: with every verification succeeding and
the pre-checks passing, `blob_get` returns the payload's blob. -/
theorem c1_blob_get_amended_witness :
    blob_get fnsAllOk 7 (List.replicate 32 6) pGuest =
      GuestResult.ok pGuest.blob :=
  ((c1_blob_get_amended fnsAllOk 7 (List.replicate 32 6) pGuest).2
    (by decide)).1.mpr ⟨rfl, rfl, by decide⟩

/-- The verifier bundle of the C2 failing input: every verification the
host performs succeeds. -/
def fnsHost : CryptoFns :=
  CryptoFns.mk (fun _ _ => Except.ok ())
    (fun _ _ _ => Except.ok ())
    (fun _ => Except.ok [])
    keccakW (fun _ _ _ => some (0xa0 :: List.replicate 32 2))

/-- The artifacts the host fetched for the C2 failing input: a one-share
blob with all proofs accepted by the verifiers. -/
def inpHost : HostInputs :=
  HostInputs.mk [222, 173, 190, 239] (List.replicate 32 1)
    (ShareProof.mk [List.replicate 4 7] []) 3 (List.replicate 32 2)
    (MerkleProof.mk 1 0 (List.replicate 32 3) []) (List.replicate 32 4)
    [[5]]

/-- The payload the host assembles from `inpHost`. -/
def pHost : OraclePayload :=
  OraclePayload.mk [222, 173, 190, 239] (List.replicate 32 1)
    (List.replicate 32 2) (MerkleProof.mk 1 0 (List.replicate 32 3) [])
    (ShareProof.mk [List.replicate 4 7] []) 3 (List.replicate 32 4) [[5]]

/-- C2 fails on the code: the host-side assembler succeeds — all of its
local verifications pass and it returns the payload — yet the guest's
`blob_get` on that very payload does not complete its checks: the guest
dereferences `pfb_data`, a field the host-assembled `OraclePayload` does
not carry, and with no namespace data the proof shares cannot be matched,
so the guest rejects the payload instead of returning the blob. -/
theorem c2_host_ok_guest_rejects :
    generate_oracle_payload fnsHost 42 inpHost = HostOutcome.ok pHost ∧
    blob_get fnsHost 42 (List.replicate 32 6)
        (guestView pHost (NamespaceData.mk [])) =
      GuestResult.err "proof shares not found to be in namespace data" := by
  constructor
  · decide
  · decide

end Hana
